import Mathlib

/-!
# Verification of the playwright-coding-agent-reporter diagnostic pipeline

A shallow embedding, in Lean 4, of the core logic of the
`@zenai/playwright-coding-agent-reporter` package:

* the bounded `ActionTracker` history (src: fixture `ActionTracker` class),
* the `levenshteinDistance` dynamic program and `calculateSimilarity`
  (src: `reporter.ts`),
* the `sortSelectorsBySimilarity` relevance scoring and stable descending sort
  (src: `reporter.ts`),
* the run-start output-directory cleanup with its `isSafeToRemove` guard
  (src: `reporter.ts`, `onBegin`),
* the `capturePageState` degraded-snapshot error handling (src: `page-helper.ts`),
* the `extractErrorData` timeout-context augmentation and `stripAnsiCodes`
  sanitisation (src: `formatters.ts`),
* the `formatErrorMessage` renderers of the console and markdown formatters
  (src: `formatters.ts`),
* the `onTestEnd` / `captureFailure` counter and failure-list state machine
  (src: `reporter.ts`).

Modelling conventions:

* JavaScript strings are modelled by Lean `String` / `List Char` (the code under
  scrutiny only manipulates them through ASCII-safe operations; `toLowerCase`
  is modelled by ASCII `Char.toLower`).
* JavaScript numbers appearing in the selector scoring are modelled by the
  exact fraction type `JsNum` below (the only division that occurs is by a
  positive string length, and all compared quantities are far apart, so exact
  rational arithmetic is a faithful model of the float computation).
* Absolute filesystem paths are modelled as lists of path components measured
  from the root, in canonical form (the code only builds them via
  `path.resolve`, `fs.realpathSync` and `process.cwd()`, all of which return
  canonical absolute paths: no `.`/`..` components, no empty components).
* Asynchronous operations that can fail or time out are modelled by `Except`
  values supplied as inputs; Promise.race of work against a timeout is the
  `Except.error` case.
-/

/-! ## Generic list helpers

`begWith a b` decides whether `a` is a leading segment of `b` (the semantics of
JavaScript `String.prototype.startsWith` on the character lists), and
`hasSeg sub l` decides whether `sub` occurs contiguously inside `l` (the
semantics of JavaScript `String.prototype.includes`). They are defined from
scratch so that every string operation of the source has one explicit model.
-/

def begWith {α : Type} [DecidableEq α] : List α → List α → Bool
  | [], _ => true
  | _ :: _, [] => false
  | a :: as, b :: bs => if a = b then begWith as bs else false

def hasSeg {α : Type} [DecidableEq α] (sub : List α) : List α → Bool
  | [] => sub.isEmpty
  | b :: bs => begWith sub (b :: bs) || hasSeg sub bs

/-! ## JavaScript string primitives used by the source -/

/-- `s.length` of a JavaScript string (code-unit count; all strings handled by
the source are effectively ASCII, where this agrees with the codepoint count
used here). -/
def strLen (s : String) : Nat := s.data.length

/-- `s.toLowerCase()` (ASCII case folding, which is all the source relies on). -/
def lowerStr (s : String) : String := String.mk (s.data.map Char.toLower)

/-- `s.includes(sub)` of JavaScript. -/
def strContains (s sub : String) : Bool := hasSeg sub.data s.data

/-- `s.startsWith(p)` of JavaScript. -/
def strBeg (s p : String) : Bool := begWith p.data s.data

/-- `s.substring(0, n)` of JavaScript. -/
def strTake (s : String) (n : Nat) : String := String.mk (s.data.take n)

/-! ## ActionTracker (claim C3)

Source (test fixture):
```ts
class ActionTracker {
  private actions: string[] = [];
  add(action: string) {
    this.actions.push(`timestamp - action`);
    if (this.actions.length > 20) { this.actions.shift(); }
  }
  get() { return this.actions; }
  clear() { this.actions = []; }
}
```
The wall-clock timestamp produced by `new Date().toISOString()` is an ambient
input and is therefore passed explicitly to `add`.
-/

structure ActionTracker where
  actions : List String
deriving DecidableEq

namespace ActionTracker

def empty : ActionTracker := ⟨[]⟩

/-- Format of an entry: `` `${timestamp} - ${action}` ``. -/
def fmtEntry (timestamp action : String) : String := timestamp ++ " - " ++ action

/-- `add(action)`: push the timestamped entry, then `shift()` once when the
log exceeds 20 entries. -/
def add (t : ActionTracker) (timestamp action : String) : ActionTracker :=
  let pushed := t.actions ++ [fmtEntry timestamp action]
  if pushed.length > 20 then ⟨pushed.tail⟩ else ⟨pushed⟩

def get (t : ActionTracker) : List String := t.actions

def clear (_ : ActionTracker) : ActionTracker := ⟨[]⟩

/-- Run a whole sequence of `add` calls (each given as timestamp/action pair). -/
def addAll (t : ActionTracker) (calls : List (String × String)) : ActionTracker :=
  calls.foldl (fun acc c => acc.add c.1 c.2) t

end ActionTracker

/-! ## Levenshtein distance (claim C4)

Source (`reporter.ts`):
```ts
private levenshteinDistance(str1: string, str2: string): number {
  const matrix: number[][] = [];
  for (let i = 0; i <= str2.length; i++) { matrix[i] = [i]; }
  for (let j = 0; j <= str1.length; j++) { matrix[0][j] = j; }
  for (let i = 1; i <= str2.length; i++) {
    for (let j = 1; j <= str1.length; j++) {
      if (str2.charAt(i - 1) === str1.charAt(j - 1)) {
        matrix[i][j] = matrix[i - 1][j - 1];
      } else {
        matrix[i][j] = Math.min(
          matrix[i - 1][j - 1] + 1, matrix[i][j - 1] + 1, matrix[i - 1][j] + 1);
      }
    }
  }
  return matrix[str2.length][str1.length];
}
```
The matrix recurrence is embedded as the cell function `levCell s1 s2 i j`
(`= matrix[i][j]`, rows indexed by `str2`, columns by `str1`); `levRowFun`
computes row `i + 1` of the table from row `i`, exactly following the inner
loop (the recursive `levRowFun … j` call is `matrix[i][j-1]` of the same row).
Every cell access the loops perform is in range, so the `Char` default of
`getD` is never produced.
-/

def levRowFun (s1 s2 : List Char) (i : Nat) (prev : Nat → Nat) : Nat → Nat
  | 0 => i + 1
  | j + 1 =>
    if s2.getD i ' ' = s1.getD j ' ' then prev j
    else min (min (prev j + 1) (levRowFun s1 s2 i prev j + 1)) (prev (j + 1) + 1)

def levCell (s1 s2 : List Char) : Nat → Nat → Nat
  | 0, j => j
  | i + 1, j => levRowFun s1 s2 i (levCell s1 s2 i) j

/-- `levenshteinDistance(str1, str2)` returns `matrix[str2.length][str1.length]`. -/
def levenshteinDistance (str1 str2 : String) : Nat :=
  levCell str1.data str2.data str2.data.length str1.data.length

/-! ## Exact model of the JavaScript numbers in the selector scoring

The scoring code adds integer contributions and one quotient
`(longer.length - editDistance) / longer.length` scaled by 50.  `JsNum` is an
exact (unnormalised) fraction with a positive denominator; every arithmetic
operation the source performs is exact in this model (for the magnitudes
involved the IEEE double computation of the source is itself exact in the
integer parts and order-preserving in the quotient, so value comparisons
agree). -/

structure JsNum where
  num : Int
  den : Nat
  den_pos : 0 < den

namespace JsNum

def ofNat (n : Nat) : JsNum := ⟨n, 1, Nat.one_pos⟩

def add (a b : JsNum) : JsNum :=
  ⟨a.num * b.den + b.num * a.den, a.den * b.den, Nat.mul_pos a.den_pos b.den_pos⟩

def mulNat (a : JsNum) (k : Nat) : JsNum := ⟨a.num * k, a.den, a.den_pos⟩

/-- Value comparison of two fractions (cross multiplication; denominators are
positive by construction). -/
def le (a b : JsNum) : Prop := a.num * (b.den : Int) ≤ b.num * (a.den : Int)

instance (a b : JsNum) : Decidable (le a b) :=
  inferInstanceAs (Decidable (a.num * (b.den : Int) ≤ b.num * (a.den : Int)))

/-- The value of a `JsNum`, as a rational number (used only in proofs). -/
def toRat (a : JsNum) : ℚ := (a.num : ℚ) / (a.den : ℚ)

end JsNum

/-! ## Selector similarity scoring and ranking (claims C5, C6)

Source (`reporter.ts`):
```ts
private calculateSimilarity(str1: string, str2: string): number {
  const longer = str1.length > str2.length ? str1 : str2;
  const shorter = str1.length > str2.length ? str2 : str1;
  if (longer.length === 0) return 1.0;
  const editDistance = this.levenshteinDistance(longer, shorter);
  return (longer.length - editDistance) / longer.length;
}
```
-/

def calculateSimilarity (str1 str2 : String) : JsNum :=
  let longer := if strLen str1 > strLen str2 then str1 else str2
  let shorter := if strLen str1 > strLen str2 then str2 else str1
  if h : strLen longer = 0 then ⟨1, 1, Nat.one_pos⟩
  else
    ⟨(strLen longer : Int) - (levenshteinDistance longer shorter : Int),
      strLen longer, Nat.pos_of_ne_zero h⟩

/-- `target.match(/[a-zA-Z0-9_-]+/g)` matches maximal runs of this character
class. -/
def isTokenChar (c : Char) : Bool := c.isAlpha || c.isDigit || c = '_' || c = '-'

def tokenizeAux (cls : Char → Bool) : List Char → List Char → List String
  | cur, [] => if cur.isEmpty then [] else [String.mk cur.reverse]
  | cur, c :: cs =>
    if cls c then tokenizeAux cls (c :: cur) cs
    else if cur.isEmpty then tokenizeAux cls [] cs
    else String.mk cur.reverse :: tokenizeAux cls [] cs

/-- The token list `target.match(/[a-zA-Z0-9_-]+/g) || []` of the source: the
maximal runs of characters in `[a-zA-Z0-9_-]`. -/
def jsTokens (s : String) : List String := tokenizeAux isTokenChar [] s.data

/-- The score the `sortSelectorsBySimilarity` map body assigns to one
candidate.  Mirrors the source:

```ts
let score = 0;
if (selectorLower === targetLower) { score = 1000; }
else if (selectorLower.includes(targetLower) || targetLower.includes(selectorLower)) {
  score = 100;
} else {
  const parts = target.match(/[a-zA-Z0-9_-]+/g) || [];
  for (const part of parts) {
    if (part.length > 2 && selectorLower.includes(part.toLowerCase())) {
      score += 10 * part.length;
    }
  }
  if (selector.length < 50 && target.length < 50) {
    score += this.calculateSimilarity(target, selector) * 50;
  }
  if (target.startsWith('.') && selector.startsWith('.')) { score += 5; }
  else if (target.startsWith('#') && selector.startsWith('#')) { score += 5; }
}
```
All additions are exact, so grouping the integer token loop into one `Nat`
accumulator before the final sum preserves the value. -/
def scoreSelector (target selector : String) : JsNum :=
  let targetLower := lowerStr target
  let selectorLower := lowerStr selector
  if selectorLower = targetLower then JsNum.ofNat 1000
  else if strContains selectorLower targetLower || strContains targetLower selectorLower then
    JsNum.ofNat 100
  else
    let parts := jsTokens target
    let tokenScore : Nat := parts.foldl
      (fun acc part =>
        if 2 < strLen part && strContains selectorLower (lowerStr part) then
          acc + 10 * strLen part
        else acc) 0
    let simScore : JsNum :=
      if strLen selector < 50 && strLen target < 50 then
        (calculateSimilarity target selector).mulNat 50
      else JsNum.ofNat 0
    let bonus : Nat :=
      if strBeg target "." && strBeg selector "." then 5
      else if strBeg target "#" && strBeg selector "#" then 5
      else 0
    JsNum.add (JsNum.add (JsNum.ofNat tokenScore) simScore) (JsNum.ofNat bonus)

structure ScoredSelector where
  selector : String
  score : JsNum

/-- Descending-score order used by `scoredSelectors.sort((a, b) => b.score - a.score)`. -/
def scoreGE (a b : ScoredSelector) : Prop := JsNum.le b.score a.score

instance : DecidableRel scoreGE :=
  fun a b => inferInstanceAs (Decidable (JsNum.le b.score a.score))

instance : IsTotal ScoredSelector scoreGE := ⟨fun _ _ => Int.le_total _ _⟩

instance : IsTrans ScoredSelector scoreGE :=
  ⟨fun a b c hab hbc => by
    unfold scoreGE JsNum.le at hab hbc ⊢
    have hb : (0 : Int) < b.score.den := by exact_mod_cast b.score.den_pos
    have h1 := mul_le_mul_of_nonneg_right hbc
      (by positivity : (0 : Int) ≤ a.score.den)
    have h2 := mul_le_mul_of_nonneg_right hab
      (by positivity : (0 : Int) ≤ c.score.den)
    have key : c.score.num * a.score.den * b.score.den
        ≤ a.score.num * c.score.den * b.score.den := by nlinarith
    exact le_of_mul_le_mul_right key hb⟩

/-- `sortSelectorsBySimilarity(target, available)`: score every candidate and
sort by score descending.  JavaScript `Array.prototype.sort` is stable, and a
stable sort by a total preorder has a unique result, so the insertion sort with
`scoreGE` is the exact model of the source's sort. -/
def sortSelectorsBySimilarity (target : String) (available : List String) : List String :=
  let scoredSelectors := available.map fun s => ScoredSelector.mk s (scoreSelector target s)
  (List.insertionSort scoreGE scoredSelectors).map (fun item => item.selector)

/-! ## The spec's description of the token accumulation (claim C5) -/

/-- Alphanumeric character class of the spec sentence of claim C5. -/
def isAlnumChar (c : Char) : Bool := c.isAlpha || c.isDigit

/-- Modelled from the spec of claim C5: "alphanumeric token of the target
(tokens split on non-alphanumeric runs)" — maximal runs of alphanumeric
characters.  This follows the spec's words, for comparison with `jsTokens`,
the tokenisation actually performed by the source. -/
def specAlnumTokens (s : String) : List String := tokenizeAux isAlnumChar [] s.data

/-- Modelled from the spec of claim C5: the score "accumulates
`10 × length(part)` for EVERY alphanumeric token of the target that appears
case-insensitively as a substring of the candidate" (no length threshold). -/
def specTokenScore (target selector : String) : Nat :=
  (((specAlnumTokens target).filter fun p =>
      strContains (lowerStr selector) (lowerStr p)).map fun p => 10 * strLen p).sum

/-- Modelled from the spec of claim C5: the non-exact, non-containment score:
the spec-described token accumulation plus the similarity and type-affinity
contributions (which claim C5 leaves as in the source). -/
def specScoreSelector (target selector : String) : JsNum :=
  let simScore : JsNum :=
    if strLen selector < 50 && strLen target < 50 then
      (calculateSimilarity target selector).mulNat 50
    else JsNum.ofNat 0
  let bonus : Nat :=
    if strBeg target "." && strBeg selector "." then 5
    else if strBeg target "#" && strBeg selector "#" then 5
    else 0
  JsNum.add (JsNum.add (JsNum.ofNat (specTokenScore target selector)) simScore)
    (JsNum.ofNat bonus)

/-- The amended description of the token accumulation, matching the source:
tokens are maximal `[a-zA-Z0-9_-]` runs, and only tokens of length greater
than 2 contribute. -/
def amendedTokenScore (target selector : String) : Nat :=
  (((jsTokens target).filter fun p =>
      2 < strLen p && strContains (lowerStr selector) (lowerStr p)).map
    fun p => 10 * strLen p).sum

/-- The non-exact, non-containment score with the amended token accumulation. -/
def specScoreSelectorAmended (target selector : String) : JsNum :=
  let simScore : JsNum :=
    if strLen selector < 50 && strLen target < 50 then
      (calculateSimilarity target selector).mulNat 50
    else JsNum.ofNat 0
  let bonus : Nat :=
    if strBeg target "." && strBeg selector "." then 5
    else if strBeg target "#" && strBeg selector "#" then 5
    else 0
  JsNum.add (JsNum.add (JsNum.ofNat (amendedTokenScore target selector)) simScore)
    (JsNum.ofNat bonus)

/-! ## Run-start output-directory cleanup (claims C1, C2)

Source (`reporter.ts`, safety helpers and `onBegin`): absolute canonical paths
are modelled as lists of components measured from the filesystem root (`[]` is
the root `/`).

```ts
private isSafeToRemove(dir: string): boolean {
  const cwd = process.cwd();
  const abs = path.resolve(cwd, dir);
  let realAbs = abs;
  try { if (fs.existsSync(abs)) realAbs = fs.realpathSync(abs); } catch {}
  const root = path.parse(realAbs).root;
  const relToCwd = path.relative(cwd, realAbs);
  if (!relToCwd || relToCwd === '' || relToCwd === '.') return false;
  if (realAbs === cwd) return false;
  if (realAbs === root) return false;
  if (relToCwd.startsWith('..') || path.isAbsolute(relToCwd)) return false;
  return true;
}
```

`path.relative(cwd, realAbs)` strips the longest common component run and
produces `..` steps for the unconsumed components of `cwd`; `relSegs` computes
its component list.  The string checks of the source translate componentwise:
the joined string is empty iff there is no segment, and it starts with `..` or
`/` iff its first segment does (segments contain no separator).
-/

def relSegs : List String → List String → List String
  | [], t => t
  | f :: fs, [] => List.replicate (f :: fs).length ".."
  | f :: fs, t :: ts =>
    if f = t then relSegs fs ts
    else List.replicate (f :: fs).length ".." ++ t :: ts

def isSafeToRemove (cwd realAbs : List String) : Bool :=
  let rel := relSegs cwd realAbs
  if rel.isEmpty then false
  else if rel = ["."] then false
  else if realAbs = cwd then false
  else if realAbs.isEmpty then false
  else if (match rel.head? with
           | some seg => strBeg seg ".."
           | none => false) then false
  else if (match rel.head? with
           | some seg => strBeg seg "/"
           | none => false) then false
  else true

/-- One filesystem object: its absolute path and whether it is a directory. -/
structure FSEntry where
  path : List String
  isDir : Bool
deriving DecidableEq

def existsPath (fs : List FSEntry) (p : List String) : Bool :=
  fs.any fun e => decide (e.path = p)

/-- `fs.rmSync(p, { force: true })` (no `recursive` flag): removes the file at
`p`; called on a directory it throws `EISDIR`, which the source catches, so
the state is then unchanged. -/
def rmFileForce (fs : List FSEntry) (p : List String) : List FSEntry :=
  if fs.any (fun e => decide (e.path = p) && e.isDir) then fs
  else fs.filter fun e => !decide (e.path = p)

/-- `fs.rmSync(p, { recursive: true, force: true })`: removes `p` and
everything below it. -/
def rmRecursiveForce (fs : List FSEntry) (p : List String) : List FSEntry :=
  fs.filter fun e => !begWith p e.path

/-- `fs.readdirSync(dir)`: the names of the direct children of `dir`. -/
def childNames (fs : List FSEntry) (dir : List String) : List String :=
  fs.filterMap fun e =>
    if decide (e.path.length = dir.length + 1) && begWith dir e.path then
      (e.path.drop dir.length).head?
    else none

def isLineTermChar (c : Char) : Bool :=
  c = '\n' || c = '\r' || c = '\u2028' || c = '\u2029'

/-- `/^failure-\d+-.*\.png$/i.test(name)`: case-insensitively, `failure-`,
then at least one digit, then `-`, then any characters other than line
terminators, ending in `.png`.  (The greedy quantifiers admit exactly this
deterministic decomposition: a digit run cannot end before a non-digit, and
the tail split is fixed by the 4-character suffix.) -/
def isFailureScreenshotName (name : String) : Bool :=
  let l := name.data.map Char.toLower
  if begWith "failure-".data l then
    let rest := l.drop 8
    let ds := rest.takeWhile Char.isDigit
    if ds.isEmpty then false
    else
      match rest.drop ds.length with
      | '-' :: tail =>
        decide (4 ≤ tail.length)
          && decide (tail.drop (tail.length - 4) = ".png".data)
          && (tail.take (tail.length - 4)).all fun c => !isLineTermChar c
      | _ => false
  else false

/-- The run-start cleanup body of `onBegin` (executed only when the safety
check passes): remove `error-context.md`, every direct child matching
`failure-<n>-*.png`, and the `screenshots/` and `traces/` subtrees.  Each
removal is wrapped in try/catch in the source and guarded by `existsSync`;
a failed removal leaves the state unchanged, which `rmFileForce` already
models for the `EISDIR` case. -/
def cleanupStep1 (outDir : List String) (fs : List FSEntry) : List FSEntry :=
  if existsPath fs (outDir ++ ["error-context.md"]) then
    rmFileForce fs (outDir ++ ["error-context.md"]) else fs

def cleanupStep2 (outDir : List String) (fs : List FSEntry) : List FSEntry :=
  (childNames fs outDir).foldl (fun acc f =>
    if isFailureScreenshotName f then rmFileForce acc (outDir ++ [f]) else acc) fs

def cleanupStep3 (outDir : List String) (fs : List FSEntry) : List FSEntry :=
  if existsPath fs (outDir ++ ["screenshots"]) then
    rmRecursiveForce fs (outDir ++ ["screenshots"]) else fs

def cleanupStep4 (outDir : List String) (fs : List FSEntry) : List FSEntry :=
  if existsPath fs (outDir ++ ["traces"]) then
    rmRecursiveForce fs (outDir ++ ["traces"]) else fs

def cleanupArtifacts (outDir : List String) (fs0 : List FSEntry) : List FSEntry :=
  cleanupStep4 outDir (cleanupStep3 outDir (cleanupStep2 outDir (cleanupStep1 outDir fs0)))

structure CleanupOutcome where
  fs : List FSEntry
  safetyWarning : Bool
deriving DecidableEq

/-- The cleanup portion of `onBegin`:

```ts
const doNotRemove = process.env.PLAYWRIGHT_AGENT_DO_NOT_REMOVE;
if (!doNotRemove) {
  if (fs.existsSync(this.outputDir)) {
    if (this.isSafeToRemove(this.outputDir)) { ...artifact removals... }
    else { console.log('... Safety Warning: Skipping cleanup ...'); }
  }
}
```

`outAbs` is `path.resolve(cwd, options.outputDir)` and `outReal` its
`realpathSync` resolution (the relationship between the two is determined by
the symlinks of the ambient filesystem, so both are inputs here); the safety
check inspects `outReal`, the removals operate under `outAbs`. -/
def onBeginCleanup (doNotRemove : Bool) (cwd outAbs outReal : List String)
    (fs : List FSEntry) : CleanupOutcome :=
  if doNotRemove then ⟨fs, false⟩
  else if existsPath fs outAbs then
    if isSafeToRemove cwd outReal then ⟨cleanupArtifacts outAbs fs, false⟩
    else ⟨fs, true⟩
  else ⟨fs, false⟩

/-- Classification of the artifacts the engine owns inside its output
directory: the consolidated `error-context.md`, direct children named
`failure-<n>-*.png`, and everything under `screenshots/` or `traces/`. -/
def isEngineArtifact (outDir : List String) (p : List String) : Bool :=
  decide (p = outDir ++ ["error-context.md"])
  || (decide (p.length = outDir.length + 1) && begWith outDir p
      && (match (p.drop outDir.length).head? with
          | some n => isFailureScreenshotName n
          | none => false))
  || begWith (outDir ++ ["screenshots"]) p
  || begWith (outDir ++ ["traces"]) p

/-! ## Page-state capture (claim C7)

Source (`page-helper.ts`):

```ts
static async capturePageState(page: Page, failedSelector?: string): Promise<PageDebugInfo> {
  try {
    const capturePromise = this.capturePageStateInternal(page, failedSelector);
    const timeoutPromise = new Promise<PageDebugInfo>((_, reject) =>
      setTimeout(() => reject(new Error('Page state capture timeout')), 5000));
    return await Promise.race([capturePromise, timeoutPromise]);
  } catch (error) {
    return { url: page.url(), title: 'Error capturing page state',
             visibleText: '', availableSelectors: [] };
  }
}
```

The asynchronous page evaluations are inputs here (`Except` values); the
outcome of `Promise.race` — either the internal result or a rejection from
the timeout or from the capture itself — is the `raced` input of
`capturePageState`. -/

structure PageDebugInfo where
  url : String
  title : String
  visibleText : String
  availableSelectors : List String
  htmlSnippet : Option String := none
deriving DecidableEq

namespace PageStateCapture

/-- `getVisibleText`: the page evaluation returns the body text already cut
to 2000 characters; any failure is caught and degrades to `""`; the result is
cut again to `MAX_VISIBLE_TEXT_LENGTH = 2000`. -/
def getVisibleText (evalResult : Except String String) : String :=
  match evalResult with
  | .ok t => strTake (strTake t 2000) 2000
  | .error _ => ""

/-- `getAvailableSelectors`: the de-duplicated, capped selector list is built
by the in-page script (part of the evaluation input here); any failure is
caught and degrades to `[]`. -/
def getAvailableSelectors (evalResult : Except String (List String)) : List String :=
  match evalResult with
  | .ok selectors => selectors
  | .error _ => []

/-- `getHtmlAroundSelector`: any failure is caught and degrades to `""`. -/
def getHtmlAroundSelector (evalResult : Except String String) : String :=
  match evalResult with
  | .ok h => h
  | .error _ => ""

/-- `capturePageStateInternal`: assembles the snapshot;
`page.title().catch(() => 'Unable to get title')` degrades the title, and the
HTML snippet is only captured when a failed selector was supplied. -/
def capturePageStateInternal (url : String) (titleResult : Except String String)
    (textResult : Except String String)
    (selectorsResult : Except String (List String))
    (failedSelector : Option String)
    (htmlResult : Except String String) : PageDebugInfo :=
  { url := url
    title := match titleResult with
      | .ok t => t
      | .error _ => "Unable to get title"
    visibleText := getVisibleText textResult
    availableSelectors := getAvailableSelectors selectorsResult
    htmlSnippet := match failedSelector with
      | some _ => some (getHtmlAroundSelector htmlResult)
      | none => none }

/-- `capturePageState`: the `try`/`catch` around the race.  The `.error` case
of `raced` covers both the 5-second timeout rejection and any internal
failure; `currentUrl` is the synchronous `page.url()` read in the catch
block. -/
def capturePageState (currentUrl : String)
    (raced : Except String PageDebugInfo) : PageDebugInfo :=
  match raced with
  | .ok info => info
  | .error _ =>
    { url := currentUrl
      title := "Error capturing page state"
      visibleText := ""
      availableSelectors := []
      htmlSnippet := none }

end PageStateCapture

/-! ## Error-message rendering (claim C9)

Source (`formatters.ts`):

```ts
// MarkdownFormatter
formatErrorMessage(message: string): string {
  const truncated =
    message.length > this.options.maxErrorLength
      ? message.substring(0, this.options.maxErrorLength) + '\n... (truncated)'
      : message;
  return `### Error\n` + truncated + `\n`;
}

// ConsoleFormatter
formatErrorMessage(message: string): string {
  return `  ### Error\n  \`\`\`\n  ` + message.split('\n').join('\n  ') + `\n  \`\`\``;
}
```
-/

namespace MarkdownFormatter

def formatErrorMessage (maxErrorLength : Nat) (message : String) : String :=
  let truncated :=
    if strLen message > maxErrorLength then
      strTake message maxErrorLength ++ "\n... (truncated)"
    else message
  "### Error\n" ++ truncated ++ "\n"

end MarkdownFormatter

namespace ConsoleFormatter

/-- `message.split('\n').join('\n  ')`: every newline is replaced by a newline
plus two spaces. -/
def indentNewlines (message : String) : String :=
  String.mk (message.data.foldr
    (fun c acc => if c = '\n' then '\n' :: ' ' :: ' ' :: acc else c :: acc) [])

def formatErrorMessage (message : String) : String :=
  "  ### Error\n  ```\n  " ++ indentNewlines message ++ "\n  ```"

end ConsoleFormatter

/-! ## ANSI stripping and timeout-context augmentation (claim C8)

Source (`formatters.ts`):

```ts
protected stripAnsiCodes(text: string): string {
  return text
    .replace(/\x1b\[[0-9;]*m/g, '')
    .replace(/\[2m|\[22m|\[31m|\[39m|\[32m/g, '')
    .replace(/\u001b/g, '');
}
```

Each global replace is a left-to-right scan that removes non-overlapping
matches.  Both regexes are modelled as deterministic character scanners: a
match is dropped, a failed partial match is flushed verbatim.  This coincides
with the regex semantics because a failed attempt contains no further
occurrence of the match-starting character in its interior (only possibly as
the failing character itself, which the scanners treat as a fresh start). -/

structure CharScanner (σ : Type) where
  step : σ → Char → List Char × σ
  flush : σ → List Char

namespace CharScanner

variable {σ : Type}

def run (M : CharScanner σ) (st : σ) : List Char → List Char
  | [] => M.flush st
  | c :: rest => (M.step st c).1 ++ M.run (M.step st c).2 rest

/-- Output and state after scanning a chunk (no end-of-input flush). -/
def consume (M : CharScanner σ) (st : σ) : List Char → List Char × σ
  | [] => ([], st)
  | c :: rest =>
    ((M.step st c).1 ++ (M.consume (M.step st c).2 rest).1,
      (M.consume (M.step st c).2 rest).2)

end CharScanner

/-- Scanner state for `/\x1b\[[0-9;]*m/g`: outside any candidate match,
after `ESC`, or after `ESC[` with the collected digit/`;` run. -/
inductive EscState
  | outside
  | esc
  | escBr (ds : List Char)

def escFlush : EscState → List Char
  | .outside => []
  | .esc => ['\x1b']
  | .escBr ds => '\x1b' :: '[' :: ds

def escStep : EscState → Char → List Char × EscState
  | .outside, c => if c = '\x1b' then ([], .esc) else ([c], .outside)
  | .esc, c =>
    if c = '[' then ([], .escBr [])
    else if c = '\x1b' then (['\x1b'], .esc)
    else (['\x1b', c], .outside)
  | .escBr ds, c =>
    if c.isDigit || c = ';' then ([], .escBr (ds ++ [c]))
    else if c = 'm' then ([], .outside)
    else if c = '\x1b' then ('\x1b' :: '[' :: ds, .esc)
    else ('\x1b' :: '[' :: ds ++ [c], .outside)

def escScanner : CharScanner EscState := ⟨escStep, escFlush⟩

/-- Scanner state for `/\[2m|\[22m|\[31m|\[39m|\[32m/g`: the partial literal
match collected so far (`[`, `[2`, `[22`, `[3`, or `[3d`). -/
inductive BrState
  | outside
  | brB
  | brB2
  | brB22
  | brB3
  | brB3d (d : Char)

def brFlush : BrState → List Char
  | .outside => []
  | .brB => ['[']
  | .brB2 => ['[', '2']
  | .brB22 => ['[', '2', '2']
  | .brB3 => ['[', '3']
  | .brB3d d => ['[', '3', d]

def brStep : BrState → Char → List Char × BrState
  | .outside, c => if c = '[' then ([], .brB) else ([c], .outside)
  | .brB, c =>
    if c = '2' then ([], .brB2)
    else if c = '3' then ([], .brB3)
    else if c = '[' then (['['], .brB)
    else (['[', c], .outside)
  | .brB2, c =>
    if c = 'm' then ([], .outside)
    else if c = '2' then ([], .brB22)
    else if c = '[' then (['[', '2'], .brB)
    else (['[', '2', c], .outside)
  | .brB22, c =>
    if c = 'm' then ([], .outside)
    else if c = '[' then (['[', '2', '2'], .brB)
    else (['[', '2', '2', c], .outside)
  | .brB3, c =>
    if c = '1' || c = '9' || c = '2' then ([], .brB3d c)
    else if c = '[' then (['[', '3'], .brB)
    else (['[', '3', c], .outside)
  | .brB3d d, c =>
    if c = 'm' then ([], .outside)
    else if c = '[' then (['[', '3', d], .brB)
    else (['[', '3', d, c], .outside)

def brScanner : CharScanner BrState := ⟨brStep, brFlush⟩

/-- `stripAnsiCodes`: the three replaces of the source, in order. -/
def stripAnsiCodes (s : String) : String :=
  String.mk ((brScanner.run .outside (escScanner.run .outside s.data)).filter
    fun c => !decide (c = '\x1b'))

/-! ### The `waiting for` capture and the timeout augmentation

Source (`formatters.ts`, `extractErrorData`):

```ts
let errorMessage = failure.error.message || failure.error.value || 'Unknown error';
if (errorMessage.includes('Timeout') || errorMessage.includes('exceeded')) {
  const waitingForMatch = errorMessage.match(/waiting for (.+?)(?:\n|$)/);
  if (waitingForMatch) {
    errorMessage += `\n\n⏱️ Timeout Context:\n`;
    errorMessage += `- Was waiting for: ` + waitingForMatch[1] + `\n`;
    errorMessage += `- Duration before timeout: ` + duration + `ms\n`;
    if (failure.pageState?.url) {
      errorMessage += `- Page URL at timeout: ` + failure.pageState.url + `\n`;
    }
    if (failure.pageState?.actionHistory && failure.pageState.actionHistory.length > 0) {
      const lastAction = ...[length - 1];
      errorMessage += `- Last action before timeout: ` + lastAction + `\n`;
    }
  }
}
const cleanMessage = this.stripAnsiCodes(errorMessage);
```

`/waiting for (.+?)(?:\n|$)/` matches at the leftmost position where
`waiting for ` is followed by at least one non-line-terminator character; the
lazy capture extends until the next character is `\n` or the end of input, and
the attempt fails (moving the start forward) if another line terminator is
reached first. -/

def lazyCaptureGo (acc : List Char) : List Char → Option (List Char)
  | [] => some acc.reverse
  | d :: ds =>
    if d = '\n' then some acc.reverse
    else if isLineTermChar d then none
    else lazyCaptureGo (d :: acc) ds

def lazyCapture : List Char → Option (List Char)
  | [] => none
  | c :: cs => if isLineTermChar c then none else lazyCaptureGo [c] cs

def waitingForSearch : List Char → Option (List Char)
  | [] => none
  | c :: cs =>
    if begWith "waiting for ".data (c :: cs) then
      match lazyCapture ((c :: cs).drop 12) with
      | some cap => some cap
      | none => waitingForSearch cs
    else waitingForSearch cs

/-- JavaScript `a || b` on strings: the empty string is falsy. -/
def jsOr (o : Option String) (dflt : String) : String :=
  match o with
  | some s => if s = "" then dflt else s
  | none => dflt

/-- The timeout-context augmentation of the error message performed by
`extractErrorData` (see the quoted source above). -/
def augmentTimeout (errorMessage : String) (duration : Nat)
    (pageUrl : Option String) (actionHistory : List String) : String :=
  if strContains errorMessage "Timeout" || strContains errorMessage "exceeded" then
    match waitingForSearch errorMessage.data with
    | some w =>
      errorMessage
        ++ "\n\n⏱️ Timeout Context:\n"
        ++ "- Was waiting for: " ++ String.mk w ++ "\n"
        ++ "- Duration before timeout: " ++ toString duration ++ "ms\n"
        ++ (match pageUrl with
            | some u => if u = "" then "" else "- Page URL at timeout: " ++ u ++ "\n"
            | none => "")
        ++ (match actionHistory.getLast? with
            | some la => "- Last action before timeout: " ++ la ++ "\n"
            | none => "")
    | none => errorMessage
  else errorMessage

/-- The clean (rendered) error message produced by `extractErrorData`:
the `||`-fallback chain, the timeout augmentation, then `stripAnsiCodes`. -/
def extractCleanErrorMessage (errMessage errValue : Option String) (duration : Nat)
    (pageUrl : Option String) (actionHistory : List String) : String :=
  stripAnsiCodes
    (augmentTimeout (jsOr errMessage (jsOr errValue "Unknown error"))
      duration pageUrl actionHistory)

/-! ## Reporter lifecycle state (claim C10)

Source (`reporter.ts`):

```ts
onTestEnd(test: TestCase, result: TestResult): void {
  if (!this.options.silent) { this.printTestResult(test, result); }
  if (result.status === 'passed') { this.testSummary.passed++; }
  else if (result.status === 'failed' || result.status === 'timedOut') {
    this.testSummary.failed++;
    this.captureFailure(test, result);
  } else if (result.status === 'skipped') { this.testSummary.skipped++; }
}

private captureFailure(test: TestCase, result: TestResult): void {
  const error = result.errors[0];
  if (!error) return;
  const failure: FailureContext = { ... };
  this.extractPageContext(result, failure);
  this.extractAttachments(result, failure);
  if (this.options.capturePageState) { this.extractPageState(result, failure); }
  this.failures.push(failure);
  this.testSummary.failures.push(failure);
}
```

`this.failures` and `this.testSummary.failures` receive the same object; they
are modelled as the single `failures` list.  `extractAttachments` only copies
trace files to disk and never mutates the failure record or the counters, so
it contributes no state change here.  `printTestResult` is console output
only. -/

inductive TestStatus
  | passed
  | failed
  | timedOut
  | skipped
  | interrupted
deriving DecidableEq

structure TestErrorInfo where
  message : Option String := none
  value : Option String := none
  snippet : Option String := none
deriving DecidableEq

structure AttachmentM where
  name : String
  body : Option String := none
  pathOnDisk : Option String := none
deriving DecidableEq

structure TestStepM where
  title : Option String := none
deriving DecidableEq

structure TestResultM where
  status : TestStatus
  duration : Nat := 0
  retry : Nat := 0
  errors : List TestErrorInfo := []
  stdout : List String := []
  stderr : List String := []
  attachments : List AttachmentM := []
  steps : List TestStepM := []
deriving DecidableEq

structure TestMeta where
  title : String
  suiteTitle : String
  file : String
  line : Nat
deriving DecidableEq

structure PageState where
  url : Option String := none
  title : Option String := none
  visibleText : Option String := none
  availableSelectors : Option (List String) := none
  htmlSnippet : Option String := none
  actionHistory : Option (List String) := none
deriving DecidableEq

structure FailureContext where
  testTitle : String
  suiteName : String
  testFile : String
  lineNumber : Nat
  error : TestErrorInfo
  stdout : List String
  stderr : List String
  duration : Nat
  retries : Nat
  testIndex : Nat
  consoleErrors : List String := []
  networkErrors : List String := []
  screenshot : Option String := none
  pageUrl : Option String := none
  pageState : Option PageState := none
deriving DecidableEq

structure ReporterOptions where
  includeScreenshots : Bool := true
  includeConsoleErrors : Bool := true
  includeNetworkErrors : Bool := true
  capturePageState : Bool := true

structure ReporterEnv where
  options : ReporterOptions
  /-- Models `JSON.parse` of the `page-state` attachment body (an external
  library call); `none` is a parse failure, which the source catches. -/
  parsePageState : String → Option PageState
  /-- Models `JSON.parse` of the `available-selectors` attachment body. -/
  parseSelectors : String → Option (List String)

structure ReporterState where
  total : Nat := 0
  passed : Nat := 0
  failed : Nat := 0
  skipped : Nat := 0
  testCounter : Nat := 0
  failures : List FailureContext := []
deriving DecidableEq

/-- `body.toString('utf-8').split('\n')` (JavaScript split keeps empty
segments). -/
def splitNewlinesAux (cur : List Char) : List Char → List String
  | [] => [String.mk cur.reverse]
  | c :: cs =>
    if c = '\n' then String.mk cur.reverse :: splitNewlinesAux [] cs
    else splitNewlinesAux (c :: cur) cs

def splitNewlines (s : String) : List String := splitNewlinesAux [] s.data

/-- `{ ...failure.pageState, ...fullState }`: every field present in the
parsed state overrides the existing one. -/
def mergePageState (ps full : PageState) : PageState :=
  { url := match full.url with | some u => some u | none => ps.url
    title := match full.title with | some t => some t | none => ps.title
    visibleText := match full.visibleText with | some v => some v | none => ps.visibleText
    availableSelectors := match full.availableSelectors with
      | some a => some a
      | none => ps.availableSelectors
    htmlSnippet := match full.htmlSnippet with | some h => some h | none => ps.htmlSnippet
    actionHistory := match full.actionHistory with
      | some a => some a
      | none => ps.actionHistory }

def extractConsoleErrors (result : TestResultM) : List String :=
  (result.steps.filterMap fun step =>
    match step.title with
    | some t =>
      if strContains t "console.error" || strContains t "console.warn" then some t
      else none
    | none => none)
  ++ result.stdout.filter fun line =>
      strContains line "[Console Error]" || strContains line "[Console Warning]"

def extractNetworkErrors (result : TestResultM) : List String :=
  result.stdout.filter fun line =>
    strContains line "ERR_" || strContains line "Failed to load resource"

def extractPageContext (opts : ReporterOptions) (result : TestResultM)
    (failure : FailureContext) : FailureContext :=
  let failure := result.attachments.foldl (fun f att =>
    if att.name = "screenshot" && opts.includeScreenshots then
      { f with screenshot := att.body }
    else if att.name = "page-url" then
      { f with pageUrl := att.body }
    else f) failure
  let failure := if opts.includeConsoleErrors then
      { failure with consoleErrors := extractConsoleErrors result }
    else failure
  if opts.includeNetworkErrors then
    { failure with networkErrors := extractNetworkErrors result }
  else failure

def extractPageState (env : ReporterEnv) (result : TestResultM)
    (failure : FailureContext) : FailureContext :=
  let f0 : FailureContext := { failure with pageState := some { url := failure.pageUrl } }
  result.attachments.foldl (fun f att =>
    match f.pageState with
    | none => f
    | some ps =>
      if att.name = "page-state" then
        match att.body with
        | some b =>
          match env.parsePageState b with
          | some full => { f with pageState := some (mergePageState ps full) }
          | none => f
        | none => f
      else if att.name = "page-title" then
        match att.body with
        | some b => { f with pageState := some { ps with title := some b } }
        | none => f
      else if att.name = "visible-text" then
        match att.body with
        | some b => { f with pageState := some { ps with visibleText := some b } }
        | none => f
      else if att.name = "available-selectors" then
        match att.body with
        | some b =>
          match env.parseSelectors b with
          | some sels =>
            { f with pageState := some { ps with availableSelectors := some sels } }
          | none => f
        | none => f
      else if att.name = "html-snippet" then
        match att.body with
        | some b => { f with pageState := some { ps with htmlSnippet := some b } }
        | none => f
      else if att.name = "action-history" then
        match att.body with
        | some b =>
          { f with pageState := some { ps with actionHistory := some (splitNewlines b) } }
        | none => f
      else f) f0

def captureFailure (env : ReporterEnv) (st : ReporterState) (test : TestMeta)
    (result : TestResultM) : ReporterState :=
  match result.errors.head? with
  | none => st
  | some error =>
    let failure : FailureContext :=
      { testTitle := test.title
        suiteName := test.suiteTitle
        testFile := test.file
        lineNumber := test.line
        error := error
        stdout := result.stdout
        stderr := result.stderr
        duration := result.duration
        retries := result.retry
        testIndex := st.testCounter }
    let failure := extractPageContext env.options result failure
    let failure := if env.options.capturePageState then
        extractPageState env result failure
      else failure
    { st with failures := st.failures ++ [failure] }

def onTestBegin (st : ReporterState) : ReporterState :=
  { st with total := st.total + 1, testCounter := st.testCounter + 1 }

def onTestEnd (env : ReporterEnv) (st : ReporterState) (test : TestMeta)
    (result : TestResultM) : ReporterState :=
  if result.status = .passed then { st with passed := st.passed + 1 }
  else if result.status = .failed ∨ result.status = .timedOut then
    captureFailure env { st with failed := st.failed + 1 } test result
  else if result.status = .skipped then { st with skipped := st.skipped + 1 }
  else st

/-! ## Theorems -/

theorem begWith_refl {α : Type} [DecidableEq α] (l : List α) : begWith l l = true := by
  induction l with
  | nil => rfl
  | cons a as ih => simp [begWith, ih]

theorem begWith_append {α : Type} [DecidableEq α] (l r : List α) :
    begWith l (l ++ r) = true := by
  induction l with
  | nil => rfl
  | cons a as ih => simp [begWith, ih]

theorem begWith_length {α : Type} [DecidableEq α] {a b : List α}
    (h : begWith a b = true) : a.length ≤ b.length := by
  induction a generalizing b with
  | nil => simp
  | cons x xs ih =>
    cases b with
    | nil => simp [begWith] at h
    | cons y ys =>
      simp only [begWith] at h
      split at h
      · simpa using ih h
      · exact absurd h (by simp)

theorem begWith_weaken {α : Type} [DecidableEq α] {a b l : List α}
    (h : begWith (a ++ b) l = true) : begWith a l = true := by
  induction a generalizing l with
  | nil => rfl
  | cons x xs ih =>
    cases l with
    | nil => simp [begWith] at h
    | cons y ys =>
      simp only [List.cons_append, begWith] at h ⊢
      split at h <;> simp_all [ih]

theorem hasSeg_of_append {α : Type} [DecidableEq α] (u sub v : List α) :
    hasSeg sub (u ++ (sub ++ v)) = true := by
  induction u with
  | nil =>
    cases h : sub ++ v with
    | nil =>
      have : sub = [] := by cases sub <;> simp_all
      simp [this, hasSeg]
    | cons c cs =>
      simp only [List.nil_append, hasSeg, h]
      rw [← h]
      simp [begWith_append]
  | cons x xs ih =>
    simp only [List.cons_append, hasSeg]
    simp [ih]

theorem hasSeg_length {α : Type} [DecidableEq α] {sub l : List α}
    (h : hasSeg sub l = true) : sub.length ≤ l.length := by
  induction l with
  | nil =>
    simp only [hasSeg, List.isEmpty_iff] at h
    simp [h]
  | cons b bs ih =>
    simp only [hasSeg, Bool.or_eq_true] at h
    rcases h with h | h
    · exact begWith_length h
    · exact le_trans (ih h) (by simp)

theorem hasSeg_weaken {α : Type} [DecidableEq α] {a b l : List α}
    (h : hasSeg (a ++ b) l = true) : hasSeg a l = true := by
  induction l with
  | nil =>
    simp only [hasSeg, List.isEmpty_iff, List.append_eq_nil] at h ⊢
    simp [h.1]
  | cons y ys ih =>
    simp only [hasSeg, Bool.or_eq_true] at h ⊢
    rcases h with h | h
    · exact Or.inl (begWith_weaken h)
    · exact Or.inr (ih h)

theorem dataAppend (a b : String) : (a ++ b).data = a.data ++ b.data := rfl

theorem strContains_of_append (u mid v : String) :
    strContains (u ++ (mid ++ v)) mid = true := by
  simpa [strContains, dataAppend] using hasSeg_of_append u.data mid.data v.data

theorem actionTracker_add_small {xs : List String} (ts a : String)
    (h : xs.length < 20) :
    ActionTracker.add ⟨xs⟩ ts a = ⟨xs ++ [ActionTracker.fmtEntry ts a]⟩ := by
  simp only [ActionTracker.add]
  rw [if_neg]
  simp only [List.length_append, List.length_cons, List.length_nil]
  omega

theorem actionTracker_add_full {x : String} {xs' : List String} (ts a : String)
    (h : (x :: xs').length = 20) :
    ActionTracker.add ⟨x :: xs'⟩ ts a = ⟨xs' ++ [ActionTracker.fmtEntry ts a]⟩ := by
  simp only [ActionTracker.add]
  rw [if_pos]
  · simp
  · simp only [List.length_append, List.cons_append, List.length_cons] at h ⊢
    omega

theorem actionTracker_addAll_eq (calls : List (String × String)) :
    ∀ xs : List String, xs.length ≤ 20 →
      (ActionTracker.addAll ⟨xs⟩ calls).actions
        = (xs ++ calls.map fun c => ActionTracker.fmtEntry c.1 c.2).drop
            (xs.length + calls.length - 20) := by
  induction calls with
  | nil =>
    intro xs h
    simp [ActionTracker.addAll, Nat.sub_eq_zero_of_le h]
  | cons p l ih =>
    intro xs h
    have step : ActionTracker.addAll ⟨xs⟩ (p :: l)
        = ActionTracker.addAll (ActionTracker.add ⟨xs⟩ p.1 p.2) l := rfl
    rw [step]
    by_cases hlt : xs.length < 20
    · rw [actionTracker_add_small _ _ hlt, ih _ (by simp; omega)]
      have hlist : (xs ++ [ActionTracker.fmtEntry p.1 p.2])
            ++ List.map (fun c => ActionTracker.fmtEntry c.1 c.2) l
          = xs ++ List.map (fun c => ActionTracker.fmtEntry c.1 c.2) (p :: l) := by
        simp
      rw [hlist]
      congr 1
      simp
      omega
    · have hx : xs.length = 20 := by omega
      obtain ⟨x, xs', rfl⟩ : ∃ y ys, xs = y :: ys := by
        cases xs with
        | nil => simp at hx
        | cons y ys => exact ⟨y, ys, rfl⟩
      rw [actionTracker_add_full _ _ hx, ih _ (by simp at hx ⊢; omega)]
      simp only [List.length_cons] at hx
      have hidx : (x :: xs').length + (p :: l).length - 20 = l.length + 1 := by
        simp
        omega
      have hidx' : (xs' ++ [ActionTracker.fmtEntry p.1 p.2]).length + l.length - 20
          = l.length := by
        simp
        omega
      rw [hidx, hidx']
      have hlist : (x :: xs') ++ List.map (fun c => ActionTracker.fmtEntry c.1 c.2) (p :: l)
          = x :: ((xs' ++ [ActionTracker.fmtEntry p.1 p.2])
              ++ List.map (fun c => ActionTracker.fmtEntry c.1 c.2) l) := by
        simp
      rw [hlist, List.drop_succ_cons]

/-- Claim C3: For any sequence of N calls to `ActionTracker.add` with capacity
C = 20, a subsequent `get()` returns exactly `min(N, C)` entries, in call order
(oldest to newest), and these are always the most recent C entries (the suffix
of the call sequence); `clear()` empties the log. -/
theorem claim_C3_actionTracker_bounded_history
    (calls : List (String × String)) (t : ActionTracker) :
    (ActionTracker.addAll ActionTracker.empty calls).get
        = (calls.map fun c => ActionTracker.fmtEntry c.1 c.2).drop (calls.length - 20)
    ∧ (ActionTracker.addAll ActionTracker.empty calls).get.length
        = min calls.length 20
    ∧ (ActionTracker.clear t).get = [] := by
  have h := actionTracker_addAll_eq calls [] (by simp)
  have hget : (ActionTracker.addAll ActionTracker.empty calls).get
      = (calls.map fun c => ActionTracker.fmtEntry c.1 c.2).drop (calls.length - 20) := by
    simpa [ActionTracker.get, ActionTracker.empty] using h
  refine ⟨hget, ?_, rfl⟩
  rw [hget]
  simp only [List.length_drop, List.length_map]
  omega

theorem levCell_zero_left (s1 s2 : List Char) (j : Nat) : levCell s1 s2 0 j = j := rfl

theorem levCell_zero_right (s1 s2 : List Char) (i : Nat) : levCell s1 s2 i 0 = i := by
  cases i <;> rfl

theorem levCell_succ_succ (s1 s2 : List Char) (i j : Nat) :
    levCell s1 s2 (i + 1) (j + 1)
      = if s2.getD i ' ' = s1.getD j ' ' then levCell s1 s2 i j
        else min (min (levCell s1 s2 i j + 1) (levCell s1 s2 (i + 1) j + 1))
          (levCell s1 s2 i (j + 1) + 1) := rfl

theorem levCell_diag (s : List Char) : ∀ i, levCell s s i i = 0 := by
  intro i
  induction i with
  | zero => rfl
  | succ i ih => rw [levCell_succ_succ, if_pos rfl, ih]

theorem levCell_symm (s1 s2 : List Char) : ∀ i j, levCell s1 s2 i j = levCell s2 s1 j i := by
  intro i
  induction i with
  | zero =>
    intro j
    rw [levCell_zero_left, levCell_zero_right]
  | succ i ih =>
    intro j
    induction j with
    | zero => rw [levCell_zero_right, levCell_zero_left]
    | succ j ihj =>
      rw [levCell_succ_succ, levCell_succ_succ, ih j, ih (j + 1), ihj]
      by_cases h : s2.getD i ' ' = s1.getD j ' '
      · rw [if_pos h, if_pos h.symm]
      · rw [if_neg h, if_neg fun hh => h hh.symm]
        omega

/-- Claim C4: `levenshteinDistance` computes the exact classic Levenshtein edit
distance: `editDistance(a, a) = 0` for every string `a`;
`editDistance(a, b) = editDistance(b, a)` for all strings `a`, `b`; and
`editDistance("kitten", "sitting") = 3`. -/
theorem claim_C4_levenshtein_distance (a b : String) :
    levenshteinDistance a a = 0
    ∧ levenshteinDistance a b = levenshteinDistance b a
    ∧ levenshteinDistance "kitten" "sitting" = 3 := by
  refine ⟨?_, ?_, by decide⟩
  · exact levCell_diag a.data a.data.length
  · exact levCell_symm a.data b.data b.data.length a.data.length

namespace JsNum

theorem den_cast_pos (a : JsNum) : (0 : ℚ) < (a.den : ℚ) := by
  exact_mod_cast a.den_pos

theorem le_iff_toRat (a b : JsNum) : le a b ↔ a.toRat ≤ b.toRat := by
  rw [toRat, toRat, div_le_div_iff₀ (den_cast_pos a) (den_cast_pos b)]
  constructor
  · intro h
    exact_mod_cast h
  · intro h
    exact_mod_cast h

theorem toRat_ofNat (n : Nat) : (ofNat n).toRat = n := by
  simp [ofNat, toRat]

theorem toRat_add (a b : JsNum) : (add a b).toRat = a.toRat + b.toRat := by
  have ha : (a.den : ℚ) ≠ 0 := ne_of_gt (den_cast_pos a)
  have hb : (b.den : ℚ) ≠ 0 := ne_of_gt (den_cast_pos b)
  simp only [add, toRat]
  rw [div_add_div _ _ ha hb]
  congr 1
  · push_cast
    ring
  · push_cast
    ring

theorem toRat_mulNat (a : JsNum) (k : Nat) : (mulNat a k).toRat = a.toRat * k := by
  simp only [mulNat, toRat]
  push_cast
  ring

theorem le_trans' {a b c : JsNum} (h1 : le a b) (h2 : le b c) : le a c := by
  rw [le_iff_toRat] at *
  exact le_trans h1 h2

theorem le_total' (a b : JsNum) : le a b ∨ le b a := by
  rw [le_iff_toRat, le_iff_toRat]
  exact le_total a.toRat b.toRat

end JsNum

theorem foldl_if_add_sum (P : String → Bool) (f : String → Nat) :
    ∀ (l : List String) (acc : Nat),
      l.foldl (fun a p => if P p then a + f p else a) acc
        = acc + ((l.filter P).map f).sum := by
  intro l
  induction l with
  | nil => simp
  | cons x xs ih =>
    intro acc
    simp only [List.foldl_cons, List.filter_cons]
    by_cases h : P x
    · simp only [h, if_true, ih, List.map_cons, List.sum_cons]
      omega
    · simp only [h, if_false, ih]
      simp at h
      simp [h]

/-- Claim C5 is refuted at two concrete inputs, both in the non-exact,
non-containment branch the claim speaks about.  For target `"ab.cd"` and
candidate `"abxcd"` the spec-described accumulation counts the alphanumeric
tokens `"ab"`, `"cd"` (the source ignores them: it only counts tokens longer
than 2 characters); for target `"foo-bar"` and candidate `"fooXbar"` the
spec-described tokens are `"foo"`, `"bar"` (the source's token is the single
run `"foo-bar"`, which does not occur in the candidate).  In both cases the
source's score is strictly below the claimed value. -/
theorem claim_C5_counterexample :
    (lowerStr "abxcd" ≠ lowerStr "ab.cd"
      ∧ strContains (lowerStr "abxcd") (lowerStr "ab.cd") = false
      ∧ strContains (lowerStr "ab.cd") (lowerStr "abxcd") = false
      ∧ ¬ JsNum.le (specScoreSelector "ab.cd" "abxcd") (scoreSelector "ab.cd" "abxcd"))
    ∧ (lowerStr "fooXbar" ≠ lowerStr "foo-bar"
      ∧ strContains (lowerStr "fooXbar") (lowerStr "foo-bar") = false
      ∧ strContains (lowerStr "foo-bar") (lowerStr "fooXbar") = false
      ∧ ¬ JsNum.le (specScoreSelector "foo-bar" "fooXbar")
          (scoreSelector "foo-bar" "fooXbar")) := by
  decide

/-- Claim C5 (amended): when a candidate is neither an exact case-insensitive
match nor a containment match with the target, the score accumulates
`10 × length(part)` for every token of the target — tokens being the maximal
runs of characters in `[a-zA-Z0-9_-]` — of length greater than 2 that appears
case-insensitively as a substring of the candidate (plus the similarity and
type-affinity contributions). -/
theorem claim_C5_token_accumulation (target selector : String)
    (hexact : lowerStr selector ≠ lowerStr target)
    (hcont1 : strContains (lowerStr selector) (lowerStr target) = false)
    (hcont2 : strContains (lowerStr target) (lowerStr selector) = false) :
    scoreSelector target selector = specScoreSelectorAmended target selector := by
  simp only [scoreSelector, specScoreSelectorAmended, if_neg hexact, hcont1, hcont2,
    Bool.or_false, Bool.false_or, if_false]
  rw [foldl_if_add_sum (fun p => 2 < strLen p && strContains (lowerStr selector) (lowerStr p))
    (fun p => 10 * strLen p) (jsTokens target) 0]
  simp [amendedTokenScore]

theorem claim_C5_token_accumulation_witness :
    lowerStr "zzz" ≠ lowerStr "foo-bar"
    ∧ strContains (lowerStr "zzz") (lowerStr "foo-bar") = false
    ∧ strContains (lowerStr "foo-bar") (lowerStr "zzz") = false
    ∧ scoreSelector "foo-bar" "zzz" = specScoreSelectorAmended "foo-bar" "zzz" :=
  ⟨by decide, by decide, by decide,
    claim_C5_token_accumulation "foo-bar" "zzz" (by decide) (by decide) (by decide)⟩

/-! ## Ranking facts (claim C6) -/

theorem sub_div_self_le_one {L d : Nat} (h : L ≠ 0) :
    ((L : ℚ) - (d : ℚ)) / (L : ℚ) ≤ 1 := by
  rw [div_le_one (by exact_mod_cast Nat.pos_of_ne_zero h)]
  have h0 : (0 : ℚ) ≤ (d : ℚ) := by positivity
  linarith

theorem calculateSimilarity_toRat_le_one (t s : String) :
    (calculateSimilarity t s).toRat ≤ 1 := by
  rw [calculateSimilarity]
  split
  · split
    · simp [JsNum.toRat]
    · rename_i h
      simp only [JsNum.toRat]
      push_cast
      exact sub_div_self_le_one h
  · split
    · simp [JsNum.toRat]
    · rename_i h
      simp only [JsNum.toRat]
      push_cast
      exact sub_div_self_le_one h

theorem simScore_toRat_le_50 (t s : String) :
    (if strLen s < 50 && strLen t < 50 then
        (calculateSimilarity t s).mulNat 50
      else JsNum.ofNat 0).toRat ≤ 50 := by
  split
  · rw [JsNum.toRat_mulNat]
    have := calculateSimilarity_toRat_le_one t s
    push_cast
    linarith
  · rw [JsNum.toRat_ofNat]
    norm_num

theorem scoreSelector_ge_100_of_contains {a : String}
    (h : strContains (lowerStr a) "foo-bar" = true) :
    JsNum.le (JsNum.ofNat 100) (scoreSelector "foo-bar" a) := by
  have hlow : lowerStr "foo-bar" = "foo-bar" := by decide
  simp only [scoreSelector]
  by_cases hx : lowerStr a = lowerStr "foo-bar"
  · rw [if_pos hx]
    decide
  · rw [if_neg hx, if_pos]
    · decide
    · rw [hlow, h]
      simp

theorem scoreSelector_not_ge_100_of_no_token {b : String}
    (h1 : strContains (lowerStr b) "foo" = false)
    (_h2 : strContains (lowerStr b) "bar" = false)
    (h3 : strContains "foo-bar" (lowerStr b) = false) :
    ¬ JsNum.le (JsNum.ofNat 100) (scoreSelector "foo-bar" b) := by
  have hlow : lowerStr "foo-bar" = "foo-bar" := by decide
  have hsplit : ("foo-bar").data = "foo".data ++ "-bar".data := by decide
  -- the candidate cannot contain the full token "foo-bar"
  have hfull : strContains (lowerStr b) "foo-bar" = false := by
    by_contra hcon
    have htrue : strContains (lowerStr b) "foo-bar" = true := by
      cases hval : strContains (lowerStr b) "foo-bar" <;> simp_all
    have hfoo : strContains (lowerStr b) "foo" = true :=
      @hasSeg_weaken Char _ ("foo").data ("-bar").data (lowerStr b).data
        (by rw [← hsplit]; exact htrue)
    simp [hfoo] at h1
  -- the candidate is not an exact match either
  have hne : lowerStr b ≠ "foo-bar" := by
    intro heq
    have hfoo : strContains (lowerStr b) "foo" = true := by
      rw [heq]
      decide
    simp [hfoo] at h1
  have hparts : jsTokens "foo-bar" = ["foo-bar"] := by decide
  have hbonus1 : strBeg "foo-bar" "." = false := by decide
  have hbonus2 : strBeg "foo-bar" "#" = false := by decide
  have hscore : scoreSelector "foo-bar" b
      = JsNum.add (JsNum.add (JsNum.ofNat 0)
          (if strLen b < 50 && strLen "foo-bar" < 50 then
            (calculateSimilarity "foo-bar" b).mulNat 50
          else JsNum.ofNat 0)) (JsNum.ofNat 0) := by
    simp only [scoreSelector, hlow]
    rw [if_neg hne]
    simp [hfull, h3, hparts, hbonus1, hbonus2, hlow]
  intro habs
  rw [hscore, JsNum.le_iff_toRat, JsNum.toRat_add, JsNum.toRat_add,
    JsNum.toRat_ofNat, JsNum.toRat_ofNat] at habs
  have hsim := simScore_toRat_le_50 "foo-bar" b
  push_cast at habs
  linarith

theorem contains_foo_of_contains_foobar {s : String}
    (h : strContains s "foo-bar" = true) : strContains s "foo" = true := by
  have hsplit : ("foo-bar" : String).data = "foo".data ++ "-bar".data := by decide
  unfold strContains at h ⊢
  rw [hsplit] at h
  exact hasSeg_weaken h

theorem scored_score_eq (target : String) (avail : List String)
    {e : ScoredSelector}
    (he : e ∈ List.insertionSort scoreGE
      (avail.map fun s => ScoredSelector.mk s (scoreSelector target s))) :
    e.score = scoreSelector target e.selector := by
  have he' : e ∈ avail.map fun s => ScoredSelector.mk s (scoreSelector target s) :=
    (List.perm_insertionSort scoreGE _).mem_iff.mp he
  obtain ⟨s, _, rfl⟩ := List.mem_map.mp he'
  rfl

/-- Claim C6 (amended): ranking the candidates
`["#submit", "#submit2", ".submit"]` against target `"#submit"` places the
exact match `"#submit"` first; and for target `"foo-bar"`, a candidate
containing the contiguous token run `"foo-bar"` (hence both tokens `"foo"` and
`"bar"`) ranks strictly above any candidate that contains neither token and is
not itself a substring of the target. -/
theorem claim_C6_ranking :
    (sortSelectorsBySimilarity "#submit" ["#submit", "#submit2", ".submit"]).head?
        = some "#submit"
    ∧ ∀ (avail : List String) (a b : String) (i j : Nat),
        strContains (lowerStr a) "foo-bar" = true →
        strContains (lowerStr b) "foo" = false →
        strContains (lowerStr b) "bar" = false →
        strContains "foo-bar" (lowerStr b) = false →
        (sortSelectorsBySimilarity "foo-bar" avail)[i]? = some a →
        (sortSelectorsBySimilarity "foo-bar" avail)[j]? = some b →
        i < j := by
  constructor
  · decide
  · intro avail a b i j ha hb1 hb2 hb3 hi hj
    simp only [sortSelectorsBySimilarity, List.getElem?_map] at hi hj
    obtain ⟨ea, hia, rfl⟩ := Option.map_eq_some'.mp hi
    obtain ⟨eb, hjb, rfl⟩ := Option.map_eq_some'.mp hj
    obtain ⟨hilen, hie⟩ := List.getElem?_eq_some_iff.mp hia
    obtain ⟨hjlen, hje⟩ := List.getElem?_eq_some_iff.mp hjb
    have hsa : ea.score = scoreSelector "foo-bar" ea.selector :=
      scored_score_eq _ _ (hie ▸ List.getElem_mem hilen)
    have hsb : eb.score = scoreSelector "foo-bar" eb.selector :=
      scored_score_eq _ _ (hje ▸ List.getElem_mem hjlen)
    by_contra hij
    push_neg at hij
    rcases lt_or_eq_of_le hij with hlt | heq
    · -- j strictly before i: sortedness forces score(ea) ≤ score(eb)
      have hsort : List.Pairwise scoreGE
          (List.insertionSort scoreGE
            (avail.map fun s => ScoredSelector.mk s (scoreSelector "foo-bar" s))) :=
        List.sorted_insertionSort scoreGE _
      have hrel := List.pairwise_iff_get.mp hsort ⟨j, hjlen⟩ ⟨i, hilen⟩
        (by exact Fin.mk_lt_mk.mpr hlt)
      simp only [List.get_eq_getElem, hie, hje] at hrel
      -- hrel : scoreGE eb ea, i.e. JsNum.le ea.score eb.score
      have h100a : JsNum.le (JsNum.ofNat 100) ea.score := by
        rw [hsa]
        exact scoreSelector_ge_100_of_contains ha
      have h100b : JsNum.le (JsNum.ofNat 100) eb.score :=
        JsNum.le_trans' h100a hrel
      rw [hsb] at h100b
      exact scoreSelector_not_ge_100_of_no_token hb1 hb2 hb3 h100b
    · -- same position: the two candidates coincide, contradiction
      subst heq
      rw [hie] at hje
      subst hje
      have hfoo := contains_foo_of_contains_foobar ha
      rw [hfoo] at hb1
      simp at hb1

theorem claim_C6_ranking_witness :
    strContains (lowerStr "xfoo-bar") "foo-bar" = true
    ∧ strContains (lowerStr "zzz") "foo" = false
    ∧ strContains (lowerStr "zzz") "bar" = false
    ∧ strContains "foo-bar" (lowerStr "zzz") = false
    ∧ (sortSelectorsBySimilarity "foo-bar" ["xfoo-bar", "zzz"])[0]? = some "xfoo-bar"
    ∧ (sortSelectorsBySimilarity "foo-bar" ["xfoo-bar", "zzz"])[1]? = some "zzz"
    ∧ (0 : Nat) < 1 :=
  ⟨by decide, by decide, by decide, by decide, by decide, by decide,
    claim_C6_ranking.2 ["xfoo-bar", "zzz"] "xfoo-bar" "zzz" 0 1
      (by decide) (by decide) (by decide) (by decide) (by decide) (by decide)⟩

/-- Claim C6, as stated, is false at a concrete input: against target
`"foo-bar"`, the candidate `"barxfoo"` contains both tokens `"foo"` and
`"bar"`, and the candidate `"fo0-b4r"` contains neither, yet the ranking
places `"fo0-b4r"` strictly above `"barxfoo"`. -/
theorem claim_C6_counterexample :
    strContains (lowerStr "barxfoo") "foo" = true
    ∧ strContains (lowerStr "barxfoo") "bar" = true
    ∧ strContains (lowerStr "fo0-b4r") "foo" = false
    ∧ strContains (lowerStr "fo0-b4r") "bar" = false
    ∧ sortSelectorsBySimilarity "foo-bar" ["barxfoo", "fo0-b4r"]
        = ["fo0-b4r", "barxfoo"] := by
  decide

theorem relSegs_self : ∀ l : List String, relSegs l l = [] := by
  intro l
  induction l with
  | nil => rfl
  | cons f fs ih => simp [relSegs, ih]

theorem relSegs_head_of_not_leading :
    ∀ {cwd p : List String}, begWith cwd p = false →
      ∃ rest, relSegs cwd p = ".." :: rest := by
  intro cwd
  induction cwd with
  | nil =>
    intro p h
    simp [begWith] at h
  | cons f fs ih =>
    intro p h
    cases p with
    | nil =>
      exact ⟨List.replicate fs.length "..", by simp [relSegs, List.replicate_succ]⟩
    | cons t ts =>
      simp only [begWith] at h
      by_cases hft : f = t
      · rw [if_pos hft] at h
        obtain ⟨rest, hrest⟩ := ih h
        exact ⟨rest, by simp [relSegs, hft, hrest]⟩
      · exact ⟨List.replicate fs.length ".." ++ t :: ts,
          by simp [relSegs, hft, List.replicate_succ]⟩

theorem isSafeToRemove_true_implies {cwd p : List String}
    (h : isSafeToRemove cwd p = true) :
    begWith cwd p = true ∧ cwd ≠ p ∧ p ≠ [] := by
  simp only [isSafeToRemove] at h
  split_ifs at h with h1 h2 h3 h4 h5 h6
  refine ⟨?_, fun hc => h3 hc.symm, fun hc => h4 (by simp [hc])⟩
  by_contra hbeg
  have hbeg' : begWith cwd p = false := by
    cases hval : begWith cwd p <;> simp_all
  obtain ⟨rest, hrest⟩ := relSegs_head_of_not_leading hbeg'
  rw [hrest] at h5
  exact h5 (by simp [strBeg, begWith_refl])

/-- Claim C1: when the resolved output directory equals the current working
directory, equals the filesystem root, or does not resolve (after following
symlinks) to a strict subpath of the current working directory, the run-start
cleanup of `onBegin` deletes zero files (the filesystem is returned unchanged)
and emits the safety warning instead. -/
theorem claim_C1_cleanup_safety (cwd outAbs outReal : List String) (fs : List FSEntry)
    (hexists : existsPath fs outAbs = true)
    (hnosafe : outReal = cwd ∨ outReal = []
      ∨ ¬ (begWith cwd outReal = true ∧ cwd ≠ outReal)) :
    onBeginCleanup false cwd outAbs outReal fs = ⟨fs, true⟩ := by
  have hsafe : isSafeToRemove cwd outReal = false := by
    by_contra hc
    have ht : isSafeToRemove cwd outReal = true := by
      cases hval : isSafeToRemove cwd outReal <;> simp_all
    obtain ⟨hbeg, hne, hnil⟩ := isSafeToRemove_true_implies ht
    rcases hnosafe with h | h | h
    · exact hne h.symm
    · exact hnil h
    · exact h ⟨hbeg, hne⟩
  simp [onBeginCleanup, hexists, hsafe]

theorem claim_C1_cleanup_safety_witness :
    existsPath [⟨["home", "proj"], true⟩] ["home", "proj"] = true
    ∧ onBeginCleanup false ["home", "proj"] ["home", "proj"] ["home", "proj"]
        [⟨["home", "proj"], true⟩]
      = ⟨[⟨["home", "proj"], true⟩], true⟩ :=
  ⟨by decide, claim_C1_cleanup_safety _ _ _ _ (by decide) (Or.inl rfl)⟩

theorem rmFileForce_subset {fs : List FSEntry} {p : List String} {e : FSEntry}
    (h : e ∈ rmFileForce fs p) : e ∈ fs := by
  unfold rmFileForce at h
  split at h
  · exact h
  · exact (List.mem_filter.mp h).1

theorem rmFileForce_removed {fs : List FSEntry} {p : List String} {e : FSEntry}
    (hin : e ∈ fs) (hout : e ∉ rmFileForce fs p) : e.path = p := by
  unfold rmFileForce at hout
  split at hout
  · exact absurd hin hout
  · by_contra hne
    exact hout (List.mem_filter.mpr ⟨hin, by simp [hne]⟩)

theorem rmRecursiveForce_subset {fs : List FSEntry} {p : List String} {e : FSEntry}
    (h : e ∈ rmRecursiveForce fs p) : e ∈ fs :=
  (List.mem_filter.mp h).1

theorem rmRecursiveForce_removed {fs : List FSEntry} {p : List String} {e : FSEntry}
    (hin : e ∈ fs) (hout : e ∉ rmRecursiveForce fs p) : begWith p e.path = true := by
  by_contra hne
  exact hout (List.mem_filter.mpr ⟨hin, by simp_all⟩)

theorem foldl_rm_subset (outDir : List String) :
    ∀ (names : List String) (fs : List FSEntry) (e : FSEntry),
      e ∈ names.foldl (fun acc f =>
        if isFailureScreenshotName f then rmFileForce acc (outDir ++ [f]) else acc) fs
      → e ∈ fs := by
  intro names
  induction names with
  | nil => intro fs e h; exact h
  | cons n ns ih =>
    intro fs e h
    simp only [List.foldl_cons] at h
    have := ih _ _ h
    split at this
    · exact rmFileForce_subset this
    · exact this

theorem foldl_rm_removed (outDir : List String) :
    ∀ (names : List String) (fs : List FSEntry) (e : FSEntry),
      e ∈ fs →
      e ∉ names.foldl (fun acc f =>
        if isFailureScreenshotName f then rmFileForce acc (outDir ++ [f]) else acc) fs →
      ∃ n, isFailureScreenshotName n = true ∧ e.path = outDir ++ [n] := by
  intro names
  induction names with
  | nil => intro fs e hin hout; exact absurd hin hout
  | cons n ns ih =>
    intro fs e hin hout
    simp only [List.foldl_cons] at hout
    by_cases hshot : isFailureScreenshotName n
    · rw [if_pos hshot] at hout
      by_cases hmem : e ∈ rmFileForce fs (outDir ++ [n])
      · exact ih _ _ hmem hout
      · exact ⟨n, hshot, rmFileForce_removed hin hmem⟩
    · rw [if_neg hshot] at hout
      exact ih _ _ hin hout

theorem cleanupStep1_subset {outDir : List String} {fs : List FSEntry} {e : FSEntry}
    (h : e ∈ cleanupStep1 outDir fs) : e ∈ fs := by
  unfold cleanupStep1 at h
  split at h
  · exact rmFileForce_subset h
  · exact h

theorem cleanupStep2_subset {outDir : List String} {fs : List FSEntry} {e : FSEntry}
    (h : e ∈ cleanupStep2 outDir fs) : e ∈ fs :=
  foldl_rm_subset outDir _ _ _ h

theorem cleanupStep3_subset {outDir : List String} {fs : List FSEntry} {e : FSEntry}
    (h : e ∈ cleanupStep3 outDir fs) : e ∈ fs := by
  unfold cleanupStep3 at h
  split at h
  · exact rmRecursiveForce_subset h
  · exact h

theorem cleanupStep4_subset {outDir : List String} {fs : List FSEntry} {e : FSEntry}
    (h : e ∈ cleanupStep4 outDir fs) : e ∈ fs := by
  unfold cleanupStep4 at h
  split at h
  · exact rmRecursiveForce_subset h
  · exact h

theorem cleanupArtifacts_subset {outDir : List String} {fs : List FSEntry} {e : FSEntry}
    (h : e ∈ cleanupArtifacts outDir fs) : e ∈ fs :=
  cleanupStep1_subset (cleanupStep2_subset (cleanupStep3_subset (cleanupStep4_subset h)))

theorem cleanupArtifacts_removed {outDir : List String} {fs : List FSEntry} {e : FSEntry}
    (hin : e ∈ fs) (hout : e ∉ cleanupArtifacts outDir fs) :
    isEngineArtifact outDir e.path = true := by
  unfold cleanupArtifacts at hout
  by_cases h1 : e ∈ cleanupStep1 outDir fs
  case neg =>
    -- removed as error-context.md
    have hp : e.path = outDir ++ ["error-context.md"] := by
      unfold cleanupStep1 at h1
      split at h1
      · exact rmFileForce_removed hin h1
      · exact absurd hin h1
    simp [isEngineArtifact, hp]
  case pos =>
  by_cases h2 : e ∈ cleanupStep2 outDir (cleanupStep1 outDir fs)
  case neg =>
    -- removed as a failure-<n>-*.png direct child
    obtain ⟨n, hshot, hp⟩ := foldl_rm_removed outDir _ _ _ h1 h2
    have hlen : e.path.length = outDir.length + 1 := by simp [hp]
    have hbeg : begWith outDir e.path = true := by
      rw [hp]
      exact begWith_append _ _
    have hhead : (e.path.drop outDir.length).head? = some n := by
      rw [hp, List.drop_left]
      rfl
    simp [isEngineArtifact, hlen, hbeg, hhead, hshot]
  case pos =>
  by_cases h3 : e ∈ cleanupStep3 outDir (cleanupStep2 outDir (cleanupStep1 outDir fs))
  case neg =>
    -- removed under screenshots/
    have hp : begWith (outDir ++ ["screenshots"]) e.path = true := by
      unfold cleanupStep3 at h3
      split at h3
      · exact rmRecursiveForce_removed h2 h3
      · exact absurd h2 h3
    simp [isEngineArtifact, hp]
  case pos =>
    -- removed under traces/
    have hp : begWith (outDir ++ ["traces"]) e.path = true := by
      unfold cleanupStep4 at hout
      split at hout
      · exact rmRecursiveForce_removed h3 hout
      · exact absurd h3 hout
    simp [isEngineArtifact, hp]

/-- Claim C2: when the resolved output directory is a genuine subdirectory of
the current working directory and cleanup is not disabled, the run-start
cleanup removes only engine-produced artifacts (the consolidated
`error-context.md`, `failure-<n>-*.png` screenshots, and the `screenshots/`
and `traces/` subtrees) and leaves every other file and directory unchanged
(and it never creates entries). -/
theorem claim_C2_cleanup_scoped (cwd outAbs outReal : List String) (fs : List FSEntry)
    (_hsub : begWith cwd outReal = true) (_hne : cwd ≠ outReal) :
    (∀ e ∈ fs, e ∉ (onBeginCleanup false cwd outAbs outReal fs).fs
        → isEngineArtifact outAbs e.path = true)
    ∧ (∀ e ∈ (onBeginCleanup false cwd outAbs outReal fs).fs, e ∈ fs) := by
  unfold onBeginCleanup
  rw [if_neg (by simp)]
  split
  · split
    · exact ⟨fun e hin hout => cleanupArtifacts_removed hin hout,
        fun e h => cleanupArtifacts_subset h⟩
    · exact ⟨fun e hin hout => absurd hin hout, fun e h => h⟩
  · exact ⟨fun e hin hout => absurd hin hout, fun e h => h⟩

theorem claim_C2_cleanup_scoped_witness :
    begWith ["p"] ["p", "out"] = true
    ∧ (["p"] : List String) ≠ ["p", "out"]
    ∧ (onBeginCleanup false ["p"] ["p", "out"] ["p", "out"]
        [⟨["p", "out"], true⟩,
         ⟨["p", "out", "error-context.md"], false⟩,
         ⟨["p", "out", "failure-1-a.png"], false⟩,
         ⟨["p", "out", "screenshots"], true⟩,
         ⟨["p", "out", "screenshots", "old.png"], false⟩,
         ⟨["p", "out", "traces"], true⟩,
         ⟨["p", "out", "keep.txt"], false⟩,
         ⟨["p", "out", "nested"], true⟩,
         ⟨["p", "out", "nested", "keep2.txt"], false⟩]).fs
      = [⟨["p", "out"], true⟩,
         ⟨["p", "out", "keep.txt"], false⟩,
         ⟨["p", "out", "nested"], true⟩,
         ⟨["p", "out", "nested", "keep2.txt"], false⟩]
    ∧ (∀ e ∈ [FSEntry.mk ["p", "out"] true,
         ⟨["p", "out", "error-context.md"], false⟩,
         ⟨["p", "out", "failure-1-a.png"], false⟩,
         ⟨["p", "out", "screenshots"], true⟩,
         ⟨["p", "out", "screenshots", "old.png"], false⟩,
         ⟨["p", "out", "traces"], true⟩,
         ⟨["p", "out", "keep.txt"], false⟩,
         ⟨["p", "out", "nested"], true⟩,
         ⟨["p", "out", "nested", "keep2.txt"], false⟩],
        e ∉ (onBeginCleanup false ["p"] ["p", "out"] ["p", "out"]
          [⟨["p", "out"], true⟩,
           ⟨["p", "out", "error-context.md"], false⟩,
           ⟨["p", "out", "failure-1-a.png"], false⟩,
           ⟨["p", "out", "screenshots"], true⟩,
           ⟨["p", "out", "screenshots", "old.png"], false⟩,
           ⟨["p", "out", "traces"], true⟩,
           ⟨["p", "out", "keep.txt"], false⟩,
           ⟨["p", "out", "nested"], true⟩,
           ⟨["p", "out", "nested", "keep2.txt"], false⟩]).fs
        → isEngineArtifact ["p", "out"] e.path = true) :=
  ⟨by decide, by decide, by decide,
    (claim_C2_cleanup_scoped ["p"] ["p", "out"] ["p", "out"] _
      (by decide) (by decide)).1⟩

/-- Claim C7: `capturePageState` never propagates an exception: it is a total
function of the race outcome, and on any internal failure or capture timeout
(the `.error` outcome) it returns the degraded snapshot whose title is
`"Error capturing page state"`, whose `visibleText` is empty and whose
`availableSelectors` list is empty, with the best-effort current URL. -/
theorem claim_C7_capture_degrades (currentUrl err : String) :
    PageStateCapture.capturePageState currentUrl (Except.error err)
      = { url := currentUrl
          title := "Error capturing page state"
          visibleText := ""
          availableSelectors := []
          htmlSnippet := none } := rfl

theorem indentNewlines_of_no_newline {message : String}
    (h : '\n' ∉ message.data) : ConsoleFormatter.indentNewlines message = message := by
  unfold ConsoleFormatter.indentNewlines
  have : ∀ l : List Char, '\n' ∉ l →
      l.foldr (fun c acc => if c = '\n' then '\n' :: ' ' :: ' ' :: acc else c :: acc) [] = l := by
    intro l hl
    induction l with
    | nil => rfl
    | cons c cs ih =>
      simp only [List.foldr_cons]
      rw [if_neg (by simp at hl; exact fun hh => hl.1 hh.symm),
        ih (by simp at hl; exact hl.2)]
  rw [this message.data h]

theorem md_formatErrorMessage_len {message : String} (hlen : strLen message = 100) :
    strLen (MarkdownFormatter.formatErrorMessage 50 message) = 77 := by
  unfold MarkdownFormatter.formatErrorMessage
  rw [if_pos (by rw [hlen]; omega)]
  have h10 : ("### Error\n" : String).data.length = 10 := rfl
  have h16 : ("\n... (truncated)" : String).data.length = 16 := rfl
  have h1 : ("\n" : String).data.length = 1 := rfl
  unfold strLen at hlen ⊢
  rw [dataAppend, dataAppend, dataAppend]
  simp only [List.length_append, h10, h16, h1, strTake, List.length_take, hlen]
  omega

/-- Claim C9 (amended): with `maxErrorLength = 50` and a 100-character error
message, the error block rendered by the markdown formatter's
`formatErrorMessage` contains exactly the first 50 characters of the message
followed by the truncation marker `"\n... (truncated)"` and never contains the
full 100-character message; the console formatter's `formatErrorMessage`
renders the message in full (shown here for messages without newlines, which
it embeds verbatim), without any truncation. -/
theorem claim_C9_truncation (message : String) (hlen : strLen message = 100) :
    strContains (MarkdownFormatter.formatErrorMessage 50 message)
        (strTake message 50 ++ "\n... (truncated)") = true
    ∧ strContains (MarkdownFormatter.formatErrorMessage 50 message) message = false
    ∧ ('\n' ∉ message.data →
        strContains (ConsoleFormatter.formatErrorMessage message) message = true) := by
  refine ⟨?_, ?_, ?_⟩
  · unfold MarkdownFormatter.formatErrorMessage
    rw [if_pos (by rw [hlen]; omega)]
    exact strContains_of_append "### Error\n" _ "\n"
  · by_contra hcon
    have hc : strContains (MarkdownFormatter.formatErrorMessage 50 message) message
        = true := by
      cases hval : strContains (MarkdownFormatter.formatErrorMessage 50 message) message <;>
        simp_all
    have hle := @hasSeg_length Char _ message.data
      (MarkdownFormatter.formatErrorMessage 50 message).data hc
    have hout := md_formatErrorMessage_len hlen
    unfold strLen at hout hlen
    omega
  · intro hnl
    unfold ConsoleFormatter.formatErrorMessage strContains
    rw [indentNewlines_of_no_newline hnl, dataAppend, dataAppend, List.append_assoc]
    exact hasSeg_of_append _ _ _

theorem claim_C9_truncation_witness :
    strLen (String.mk (List.replicate 100 'a')) = 100
    ∧ strContains
        (MarkdownFormatter.formatErrorMessage 50 (String.mk (List.replicate 100 'a')))
        (strTake (String.mk (List.replicate 100 'a')) 50 ++ "\n... (truncated)") = true
    ∧ strContains
        (MarkdownFormatter.formatErrorMessage 50 (String.mk (List.replicate 100 'a')))
        (String.mk (List.replicate 100 'a')) = false
    ∧ strContains (ConsoleFormatter.formatErrorMessage (String.mk (List.replicate 100 'a')))
        (String.mk (List.replicate 100 'a')) = true :=
  ⟨by decide,
    (claim_C9_truncation _ (by decide)).1,
    (claim_C9_truncation _ (by decide)).2.1,
    (claim_C9_truncation _ (by decide)).2.2 (by decide)⟩

/-- Claim C9, as stated, is false at a concrete input: for a 100-character
message, the console formatter variant's `formatErrorMessage` emits the full
message (all 100 characters appear in the rendered block) and no truncation
marker at all. -/
theorem claim_C9_counterexample :
    strLen (String.mk (List.replicate 100 'a')) = 100
    ∧ strContains (ConsoleFormatter.formatErrorMessage (String.mk (List.replicate 100 'a')))
        (String.mk (List.replicate 100 'a')) = true
    ∧ strContains (ConsoleFormatter.formatErrorMessage (String.mk (List.replicate 100 'a')))
        "(truncated)" = false := by
  decide

namespace CharScanner

variable {σ : Type}

theorem run_append (M : CharScanner σ) :
    ∀ (l : List Char) (st : σ) (r : List Char),
      M.run st (l ++ r) = (M.consume st l).1 ++ M.run (M.consume st l).2 r := by
  intro l
  induction l with
  | nil =>
    intro st r
    simp [run, consume]
  | cons c cs ih =>
    intro st r
    simp only [List.cons_append, run, consume, List.append_eq]
    rw [ih]
    simp [List.append_assoc]

theorem run_newline (M : CharScanner σ) (init : σ)
    (hnl : ∀ st, M.step st '\n' = (M.flush st ++ ['\n'], init)) :
    ∀ (l : List Char) (st : σ) (r : List Char),
      ∃ x, M.run st (l ++ '\n' :: r) = x ++ '\n' :: M.run init r := by
  intro l st r
  rw [run_append]
  refine ⟨(M.consume st l).1 ++ M.flush (M.consume st l).2, ?_⟩
  simp only [run, hnl]
  simp [List.append_assoc]

theorem run_clean (M : CharScanner σ) (init : σ) :
    ∀ (l r : List Char), (∀ c ∈ l, M.step init c = ([c], init)) →
      M.run init (l ++ r) = l ++ M.run init r := by
  intro l
  induction l with
  | nil => simp
  | cons c cs ih =>
    intro r h
    simp only [List.cons_append, run, List.append_eq]
    rw [h c (List.mem_cons_self c cs)]
    simp only [List.cons_append, List.nil_append]
    rw [ih r fun c' hc' => h c' (List.mem_cons_of_mem c hc')]

end CharScanner

theorem escStep_newline : ∀ st, escStep st '\n' = (escFlush st ++ ['\n'], .outside) := by
  intro st
  cases st <;> rfl

theorem brStep_newline : ∀ st, brStep st '\n' = (brFlush st ++ ['\n'], .outside) := by
  intro st
  cases st <;> rfl

theorem escStep_clean {c : Char} (h : c ≠ '\x1b') :
    escStep .outside c = ([c], .outside) := by
  simp [escStep, h]

theorem brStep_clean {c : Char} (h : c ≠ '[') :
    brStep .outside c = ([c], .outside) := by
  simp [brStep, h]

theorem dataMk (l : List Char) : (String.mk l).data = l := rfl

/-- The stripping pipeline preserves the duration line: for any prefix and
suffix, the sanitised message still contains
`"Duration before timeout: 5000ms"` when a line of the form
`"\n- Duration before timeout: 5000ms\n"` occurs in it.  (No match of either
ANSI regex can reach into this line: the line holds no `ESC` and no `[`, and
a match started before it would have to consume its leading `'\n'`, which no
pattern accepts.) -/
theorem strip_preserves_duration_line (pre rest : List Char) :
    hasSeg ("Duration before timeout: 5000ms").data
      (stripAnsiCodes (String.mk
        (pre ++ ('\n' :: (("- Duration before timeout: 5000ms").data
          ++ ('\n' :: rest)))))).data = true := by
  unfold stripAnsiCodes
  simp only [dataMk]
  -- pass 1: the escape-sequence scanner
  obtain ⟨x1, hx1⟩ := escScanner.run_newline .outside escStep_newline pre .outside
    (("- Duration before timeout: 5000ms").data ++ ('\n' :: rest))
  rw [hx1]
  have hclean1 : escScanner.run .outside
      (("- Duration before timeout: 5000ms").data ++ ('\n' :: rest))
      = ("- Duration before timeout: 5000ms").data
        ++ ('\n' :: escScanner.run .outside rest) := by
    rw [escScanner.run_clean .outside _ ('\n' :: rest)
      (by
        intro c hc
        refine escStep_clean fun hcc => ?_
        rw [hcc] at hc
        revert hc
        decide)]
    rfl
  rw [hclean1]
  -- pass 2: the literal-alternation scanner
  obtain ⟨x2, hx2⟩ := brScanner.run_newline .outside brStep_newline x1 .outside
    (("- Duration before timeout: 5000ms").data
      ++ ('\n' :: escScanner.run .outside rest))
  rw [hx2]
  have hclean2 : brScanner.run .outside
      (("- Duration before timeout: 5000ms").data
        ++ ('\n' :: escScanner.run .outside rest))
      = ("- Duration before timeout: 5000ms").data
        ++ ('\n' :: brScanner.run .outside (escScanner.run .outside rest)) := by
    rw [brScanner.run_clean .outside _ ('\n' :: escScanner.run .outside rest)
      (by
        intro c hc
        refine brStep_clean fun hcc => ?_
        rw [hcc] at hc
        revert hc
        decide)]
    rfl
  rw [hclean2]
  -- pass 3: dropping the remaining ESC characters
  have hfD : List.filter (fun c => !decide (c = '\x1b'))
      ("- Duration before timeout: 5000ms").data
      = ("- Duration before timeout: 5000ms").data :=
    List.filter_eq_self.mpr (by decide)
  rw [List.filter_append, List.filter_cons_of_pos (by decide), List.filter_append,
    hfD, List.filter_cons_of_pos (by decide)]
  -- the duration line survives; peel off its "- " bullet and conclude
  have hsplit : ("- Duration before timeout: 5000ms").data
      = "- ".data ++ ("Duration before timeout: 5000ms").data := by decide
  rw [hsplit, List.append_assoc, ← List.cons_append, ← List.append_assoc]
  exact hasSeg_of_append _ _ _

theorem prepend_waiting_header (X : List Char) :
    "\n\n⏱️ Timeout Context:\n".data ++ ("- Was waiting for: ".data ++ X)
      = "\n\n⏱️ Timeout Context:\n- Was waiting for: ".data ++ X := by
  rw [← List.append_assoc]
  congr 1

theorem duration_line_chunk (Z : List Char) :
    "\n".data ++ ("- Duration before timeout: ".data
        ++ ((toString (5000 : Nat)).data ++ ("ms\n".data ++ Z)))
      = '\n' :: (("- Duration before timeout: 5000ms").data ++ ('\n' :: Z)) := by
  have h : "\n".data ++ ("- Duration before timeout: ".data
        ++ ((toString (5000 : Nat)).data ++ "ms\n".data))
      = '\n' :: (("- Duration before timeout: 5000ms").data ++ ['\n']) := by decide
  calc "\n".data ++ ("- Duration before timeout: ".data
        ++ ((toString (5000 : Nat)).data ++ ("ms\n".data ++ Z)))
      = ("\n".data ++ ("- Duration before timeout: ".data
          ++ ((toString (5000 : Nat)).data ++ "ms\n".data))) ++ Z := by
        simp [List.append_assoc]
    _ = ('\n' :: (("- Duration before timeout: 5000ms").data ++ ['\n'])) ++ Z := by
        rw [h]
    _ = '\n' :: (("- Duration before timeout: 5000ms").data ++ ('\n' :: Z)) := by
        simp

/-- Claim C8 (amended): for every failure whose error message contains
`"Timeout"` and contains a `waiting for …` clause (the source synthesises the
timeout-context block only when its `/waiting for (.+?)(?:\n|$)/` regex
matches) and whose recorded duration is 5000, the error message produced for
rendering by `extractErrorData` contains the literal substring
`"Duration before timeout: 5000ms"`. -/
theorem claim_C8_timeout_augmentation (msg : String) (w : List Char)
    (pageUrl : Option String) (actionHistory : List String)
    (hT : strContains msg "Timeout" = true)
    (hW : waitingForSearch msg.data = some w) :
    strContains
      (extractCleanErrorMessage (some msg) none 5000 pageUrl actionHistory)
      "Duration before timeout: 5000ms" = true := by
  have hne : msg ≠ "" := by
    intro h
    rw [h] at hT
    exact absurd hT (by decide)
  unfold extractCleanErrorMessage
  have hjs : jsOr (some msg) (jsOr none "Unknown error") = msg := by
    simp [jsOr, hne]
  rw [hjs]
  have haug : augmentTimeout msg 5000 pageUrl actionHistory
      = String.mk ((msg.data
            ++ ("\n\n⏱️ Timeout Context:\n- Was waiting for: ".data ++ w))
          ++ ('\n' :: (("- Duration before timeout: 5000ms").data
            ++ ('\n' :: ((match pageUrl with
                  | some u => if u = "" then ""
                    else "- Page URL at timeout: " ++ u ++ "\n"
                  | none => "").data
                ++ (match actionHistory.getLast? with
                  | some la => "- Last action before timeout: " ++ la ++ "\n"
                  | none => "").data))))) := by
    unfold augmentTimeout
    rw [hT]
    simp only [Bool.true_or, eq_self_iff_true, if_true]
    rw [hW]
    apply String.ext
    simp only [dataAppend, dataMk, List.append_assoc]
    rw [prepend_waiting_header, duration_line_chunk]
  rw [haug]
  exact strip_preserves_duration_line _ _

theorem claim_C8_timeout_augmentation_witness :
    strContains "Timeout waiting for selector" "Timeout" = true
    ∧ waitingForSearch ("Timeout waiting for selector").data = some ("selector").data
    ∧ strContains
        (extractCleanErrorMessage (some "Timeout waiting for selector") none 5000 none [])
        "Duration before timeout: 5000ms" = true :=
  ⟨by decide, by decide,
    claim_C8_timeout_augmentation "Timeout waiting for selector" ("selector").data
      none [] (by decide) (by decide)⟩

/-- Claim C8, as stated, is false at a concrete input: the message
`"Timeout!"` contains `"Timeout"` and the recorded duration is 5000, but it
has no `waiting for …` clause, so `extractErrorData` skips the augmentation
entirely and the rendered message does not contain
`"Duration before timeout: 5000ms"`. -/
theorem claim_C8_counterexample :
    strContains "Timeout!" "Timeout" = true
    ∧ strContains (extractCleanErrorMessage (some "Timeout!") none 5000 none [])
        "Duration before timeout: 5000ms" = false := by
  decide

/-- Claim C10: if a test ends with status `failed` or `timedOut` but its
result carries an empty `errors` array, `onTestEnd` still increments the
failed counter while `captureFailure` returns without appending a
`FailureContext`, so the run summary's failed count can exceed the number of
failures present in the failure list (and hence in any rendered report, which
is generated from that list). -/
theorem claim_C10_failed_without_errors (env : ReporterEnv) (st : ReporterState)
    (test : TestMeta) (result : TestResultM)
    (hstatus : result.status = .failed ∨ result.status = .timedOut)
    (herr : result.errors = []) :
    (onTestEnd env st test result).failed = st.failed + 1
    ∧ (onTestEnd env st test result).failures = st.failures
    ∧ (onTestEnd env { } test result).failed
        > (onTestEnd env { } test result).failures.length := by
  have hnp : ¬ result.status = TestStatus.passed := by
    rcases hstatus with h | h <;> simp [h]
  have hend : ∀ s : ReporterState, onTestEnd env s test result
      = { s with failed := s.failed + 1 } := by
    intro s
    unfold onTestEnd captureFailure
    rw [if_neg hnp, if_pos hstatus, herr]
    rfl
  rw [hend st, hend { }]
  exact ⟨rfl, rfl, by simp⟩

theorem claim_C10_failed_without_errors_witness :
    (({ status := TestStatus.failed, duration := 5000 } : TestResultM).status
        = TestStatus.failed
      ∨ ({ status := TestStatus.failed, duration := 5000 } : TestResultM).status
        = TestStatus.timedOut)
    ∧ ({ status := TestStatus.failed, duration := 5000 } : TestResultM).errors = []
    ∧ (onTestEnd ⟨{ }, fun _ => none, fun _ => none⟩ { }
          ⟨"a test", "a suite", "spec.ts", 1⟩
          { status := TestStatus.failed, duration := 5000 }).failed = 0 + 1
    ∧ (onTestEnd ⟨{ }, fun _ => none, fun _ => none⟩ { }
          ⟨"a test", "a suite", "spec.ts", 1⟩
          { status := TestStatus.failed, duration := 5000 }).failures = [] := by
  refine ⟨Or.inl rfl, rfl, ?_, ?_⟩
  · exact (claim_C10_failed_without_errors ⟨{ }, fun _ => none, fun _ => none⟩ { }
      ⟨"a test", "a suite", "spec.ts", 1⟩ _ (Or.inl rfl) rfl).1
  · exact (claim_C10_failed_without_errors ⟨{ }, fun _ => none, fun _ => none⟩ { }
      ⟨"a test", "a suite", "spec.ts", 1⟩ _ (Or.inl rfl) rfl).2.1
